import Mathlib

/-!
Verification of the substitution-PDF extraction and caching pipeline
(repository `substitution_pdf_server`).

Shallow embedding conventions:
* Rust `String` values are embedded as `List Char` (abbreviated `Str`),
  so that every string operation is structurally recursive and reduces
  in the kernel.
* Rust `HashMap` values are embedded as association lists with
  replace-or-append insertion (`updateAL`), which mirrors `HashMap::insert`
  and `HashMap::get_mut` up to iteration order; all properties proved here
  are stated through lookups, which are order-independent.
* A Rust panic (out-of-bounds index, `unwrap` on `None`/`Err`) is embedded
  as the `none`/`panic` case of an `Option`-like result type.
* External collaborators (PDF text extraction via lopdf, the tabula
  invocation, SHA-512, the database, the filesystem) are parameters of the
  functions that call them.
-/

/-- Rust `String`, embedded as its character list. -/
abbrev Str := List Char

/-- Association-list lookup, mirroring `HashMap::get`. -/
def lookupAL {κ α : Type} [DecidableEq κ] : List (κ × α) → κ → Option α
  | [], _ => none
  | (k, v) :: rest, key => if k = key then some v else lookupAL rest key

/-- Association-list insert, mirroring `HashMap::insert`: replaces the
binding in place when the key is present, otherwise appends. -/
def updateAL {κ α : Type} [DecidableEq κ] : List (κ × α) → κ → α → List (κ × α)
  | [], key, v => [(key, v)]
  | (k, w) :: rest, key, v =>
    if k = key then (key, v) :: rest else (k, w) :: updateAL rest key v

/-- One column of substitutions, from `SubstitutionColumn` in
`substitution_pdf_to_json/src/lib.rs` (six optional lesson blocks). -/
structure SubstitutionColumn where
  block_0 : Option Str
  block_1 : Option Str
  block_2 : Option Str
  block_3 : Option Str
  block_4 : Option Str
  block_5 : Option Str
deriving DecidableEq, Repr

/-- `SubstitutionColumn::new`: all blocks absent. -/
def SubstitutionColumn.new : SubstitutionColumn :=
  ⟨none, none, none, none, none, none⟩

/-- The `match lesson_idx` dispatch in `table_to_substitutions`, read side:
selects the block for a lesson index; `none` is the `panic!` arm. -/
def getBlock (c : SubstitutionColumn) : Nat → Option (Option Str)
  | 0 => some c.block_0
  | 1 => some c.block_1
  | 2 => some c.block_2
  | 3 => some c.block_3
  | 4 => some c.block_4
  | 5 => some c.block_5
  | _ => none

/-- The `match lesson_idx` dispatch, write side: stores a value into the
block for a lesson index (only reached when `getBlock` succeeded). -/
def setBlock (c : SubstitutionColumn) (lessonIdx : Nat) (v : Option Str) : SubstitutionColumn :=
  match lessonIdx with
  | 0 => { c with block_0 := v }
  | 1 => { c with block_1 := v }
  | 2 => { c with block_2 := v }
  | 3 => { c with block_3 := v }
  | 4 => { c with block_4 := v }
  | 5 => { c with block_5 := v }
  | _ => c

/-- Body of the per-cell step in `table_to_substitutions`: select the block
for `lesson_idx` (panic if out of range), then, when the cell text is
non-empty, append it newline-joined (`push_str(&format!("\n{}", part))`) or
set it as the first contribution. -/
def applyCell (lessonIdx : Nat) (part : Str) (col : SubstitutionColumn) :
    Option SubstitutionColumn :=
  match getBlock col lessonIdx with
  | none => none
  | some blockOpt =>
    if part.isEmpty then some col
    else
      match blockOpt with
      | some block => some (setBlock col lessonIdx (some (block ++ '\n' :: part)))
      | none => some (setBlock col lessonIdx (some part))

/-- List indexing mirroring Rust `v[i]` minus the panic: `none` where Rust
would panic with an out-of-bounds index. -/
def nth? {α : Type} : List α → Nat → Option α
  | [], _ => none
  | a :: _, 0 => some a
  | _ :: l, n + 1 => nth? l n

/-- Per-class entry map of one table. -/
abbrev EntriesAL := List (Str × SubstitutionColumn)

/-- The `for (i, substitution_part) in table[row][1..].iter().enumerate()`
loop of `table_to_substitutions`: `cells` is `table[row][1..]`, `i` the
enumeration index. `none` embeds the panics (`classes[i]` out of bounds,
`entries.get_mut(..).unwrap()` on a missing key, `lesson_idx` above 5). -/
def processCells (classes : List Str) (lessonIdx : Nat) :
    Nat → List Str → EntriesAL → Option EntriesAL
  | _, [], e => some e
  | i, part :: rest, e =>
    match nth? classes i with
    | none => none
    | some cls =>
      match lookupAL e cls with
      | none => none
      | some col =>
        match applyCell lessonIdx part col with
        | none => none
        | some col2 => processCells classes lessonIdx (i + 1) rest (updateAL e cls col2)

/-- Rust `s.starts_with('-')` on the first cell of a row. -/
def startsWithDash : Str → Bool
  | [] => false
  | c :: _ => c = '-'

/-- The inner `loop` of `table_to_substitutions` for one lesson block group:
consume rows, processing cells `1..` of each row, until (and including) the
first row whose cell 0 starts with `'-'`. Returns the rows remaining after
the terminating row together with the updated entries. `none` embeds the
panics: running out of rows (`table[row]` out of bounds) or an empty row
(`table[row][1..]` / `table[row][0]` out of bounds). -/
def processGroup (classes : List Str) (lessonIdx : Nat) :
    List (List Str) → EntriesAL → Option (List (List Str) × EntriesAL)
  | [], _ => none
  | cells :: rest, e =>
    match cells with
    | [] => none
    | c0 :: restCells =>
      match processCells classes lessonIdx 0 restCells e with
      | none => none
      | some e2 =>
        if startsWithDash c0 then some (rest, e2)
        else processGroup classes lessonIdx rest e2

/-- The outer `for lesson_idx in 0..5` loop of `table_to_substitutions`,
with the lesson indices given as an explicit list. -/
def processGroupsList (classes : List Str) :
    List Nat → List (List Str) → EntriesAL → Option EntriesAL
  | [], _, e => some e
  | idx :: idxs, rows, e =>
    match processGroup classes idx rows e with
    | none => none
    | some (rest, e2) => processGroupsList classes idxs rest e2

/-- Initialisation loop of `table_to_substitutions`: one fresh
`SubstitutionColumn` inserted per header class name, in header order. -/
def initEntries (classes : List Str) : EntriesAL :=
  classes.foldl (fun e c => updateAL e c SubstitutionColumn.new) []

/-- Extracted PDF data, from `SubstitutionSchedule` in
`substitution_pdf_to_json/src/lib.rs`. -/
structure SubstitutionSchedule where
  pdf_issue_date : Int
  entries : EntriesAL
  struct_time : Int
deriving DecidableEq, Repr

/-- `SubstitutionSchedule::table_to_substitutions`: header row cells `1..`
are the class names; rows from index 1 are consumed as exactly five lesson
block groups. `none` embeds the function's panics (empty table, empty
header row, and the panics of the loops above). -/
def SubstitutionSchedule.table_to_substitutions (table : List (List Str)) :
    Option EntriesAL :=
  match table with
  | [] => none
  | header :: rest =>
    match header with
    | [] => none
    | _label :: classes => processGroupsList classes (List.range 5) rest (initEntries classes)

/-- `entries.extend(..)` over one reconstructed table: insert every binding
of `m` into `e` (later tables overwrite earlier ones on duplicate keys). -/
def extendAL (e : EntriesAL) (m : EntriesAL) : EntriesAL :=
  m.foldl (fun acc p => updateAL acc p.1 p.2) e

/-- `SubstitutionSchedule::from_table`: merge every table's reconstruction
into one entry map (`none` when a reconstruction panics); the construction
timestamp `SystemTime::now()` is passed in as `time_millis`. -/
def SubstitutionSchedule.from_table (tables : List (List (List Str)))
    (pdf_create_date : Int) (time_millis : Int) : Option SubstitutionSchedule :=
  match tables.foldl
      (fun acc t =>
        match acc, SubstitutionSchedule.table_to_substitutions t with
        | some e, some m => some (extendAL e m)
        | _, _ => none)
      (some []) with
  | none => none
  | some entries => some ⟨pdf_create_date, entries, time_millis⟩

/-! ## Issue-date parsing (`SubstitutionSchedule::from_pdf`, lines 94-110) -/

/-- Is `sep` a prefix of `s`? (Character-list version of substring match.) -/
def isPrefixOfL : Str → Str → Bool
  | [], _ => true
  | _ :: _, [] => false
  | a :: l1, b :: l2 => a = b && isPrefixOfL l1 l2

/-- Worker for `splitOnL`, with fuel bounding the scan length. -/
def splitGo (sep : Str) : Nat → Str → Str → List Str
  | 0, acc, _ => [acc.reverse]
  | _, acc, [] => [acc.reverse]
  | fuel + 1, acc, c :: rest =>
    if isPrefixOfL sep (c :: rest) then
      acc.reverse :: splitGo sep fuel [] ((c :: rest).drop sep.length)
    else
      splitGo sep fuel (c :: acc) rest

/-- Rust `str::split(sep)` for a non-empty separator: leftmost,
non-overlapping matches; always yields at least one segment. -/
def splitOnL (sep : Str) (s : Str) : List Str :=
  splitGo sep s.length [] s

/-- Rejoin split segments with the separator; used to recover the text
after the first occurrence of a pattern. -/
def intercalateL (sep : Str) : List Str → Str
  | [] => []
  | [s] => s
  | s :: rest => s ++ sep ++ intercalateL sep rest

/-- Rust `str::parse::<u32>()`: optional leading `'+'`, one or more ASCII
digits, value below `2^32`. -/
def parseU32 (s : Str) : Option Nat :=
  let s2 := match s with
    | '+' :: rest => rest
    | _ => s
  if s2.isEmpty then none
  else if s2.all (·.isDigit) then
    let n := s2.foldl (fun acc c => acc * 10 + (c.toNat - 48)) 0
    if n < 4294967296 then some n else none
  else none

/-- Rust `u32 as i32`: two's-complement wrap. -/
def wrapI32 (n : Nat) : Int :=
  if n < 2147483648 then (n : Int) else (n : Int) - 4294967296

/-- Proleptic-Gregorian leap-year rule. -/
def isLeapYear (y : Int) : Bool :=
  y % 4 = 0 && (y % 100 ≠ 0 || y % 400 = 0)

/-- Days in a month of the proleptic Gregorian calendar. -/
def daysInMonth (y : Int) (m : Nat) : Nat :=
  if m = 2 then (if isLeapYear y then 29 else 28)
  else if m = 4 ∨ m = 6 ∨ m = 9 ∨ m = 11 then 30
  else 31

/-- Validity check of `chrono::NaiveDate::from_ymd` (which panics on an
invalid date): month and day in range, year within chrono's representable
range. -/
def validDate (y : Int) (m d : Nat) : Bool :=
  decide (-262144 ≤ y) && decide (y ≤ 262143) &&
  decide (1 ≤ m) && decide (m ≤ 12) &&
  decide (1 ≤ d) && decide (d ≤ daysInMonth y m)

/-- Days from 1970-01-01 to the given proleptic-Gregorian date
(civil-from-days inverse, Hinnant's algorithm). -/
def daysFromCivil (y : Int) (m d : Nat) : Int :=
  let y2 : Int := if m ≤ 2 then y - 1 else y
  let era : Int := Int.fdiv y2 400
  let yoe : Int := y2 - era * 400
  let mp : Int := (m + 9) % 12
  let doy : Int := (153 * mp + 2) / 5 + d - 1
  let doe : Int := yoe * 365 + yoe / 4 - yoe / 100 + doy
  era * 146097 + doe - 719468

/-- Result of the issue-date portion of `from_pdf`: an `Err` return, a
panic (`unwrap` on a failed `u32` parse, out-of-bounds `date_str[..]`,
`from_ymd` on an invalid date), or the computed epoch milliseconds. -/
inductive DateResult
  | panic
  | err (msg : Str)
  | ok (millis : Int)
deriving DecidableEq, Repr

/-- The literal label searched for in the extracted PDF text. -/
def datumLabel : Str := "Datum: ".data

/-- Issue-date parsing from `SubstitutionSchedule::from_pdf`: locate
`"Datum: "` (else `Err("date not found")`), find the next newline (else
`Err("date end not found")`), split the label-to-newline text on `", "`,
take the last segment, split it on `'.'`, `parse::<u32>().unwrap()` each
component (panic on failure), then read components `[2]`, `[1]`, `[0]` as
year, month, day (panic when fewer than three) and build the date at
midnight, `localOffsetMillis` being the UTC offset of the environment's
local timezone (the `Date<Local>` path of chrono interprets the parsed
date in the system timezone). -/
def parse_issue_date (localOffsetMillis : Int) (text : Str) : DateResult :=
  match splitOnL datumLabel text with
  | [] => DateResult.err "date not found".data
  | [_] => DateResult.err "date not found".data
  | _ :: p2 :: more =>
    let after := intercalateL datumLabel (p2 :: more)
    if after.all (· ≠ '\n') then DateResult.err "date end not found".data
    else
      let line := datumLabel ++ after.takeWhile (· ≠ '\n')
      match (splitOnL ", ".data line).getLast? with
      | none => DateResult.err "date string has no comma".data
      | some seg =>
        let comps := (splitOnL ".".data seg).map parseU32
        if comps.any (·.isNone) then DateResult.panic
        else
          let vals := comps.reduceOption
          match nth? vals 2, nth? vals 1, nth? vals 0 with
          | some y32, some m, some d =>
            let y := wrapI32 y32
            if validDate y m d then
              DateResult.ok (daysFromCivil y m d * 86400000 - localOffsetMillis)
            else DateResult.panic
          | _, _, _ => DateResult.panic

/-! ## JSON serialization (serde derive on `SubstitutionColumn` /
`SubstitutionSchedule`, `serde_json::to_string`) -/

/-- JSON values (the fragment serde_json produces for these types). -/
inductive Json
  | null
  | str (s : Str)
  | num (n : Int)
  | obj (fields : List (Str × Json))
deriving Repr

/-- serde field emission for an `Option<String>` block with
`skip_serializing_if = "Option::is_none"`: absent blocks produce no field
at all. -/
def optField (key : Str) (v : Option Str) : List (Str × Json) :=
  match v with
  | none => []
  | some s => [(key, Json.str s)]

/-- serde serialization of `SubstitutionColumn`: fields `"0"`..`"5"` in
declaration order, absent ones omitted. -/
def columnToJson (c : SubstitutionColumn) : Json :=
  Json.obj (optField "0".data c.block_0 ++ optField "1".data c.block_1 ++
    optField "2".data c.block_2 ++ optField "3".data c.block_3 ++
    optField "4".data c.block_4 ++ optField "5".data c.block_5)

/-- serde serialization of `SubstitutionSchedule`: issue date, per-class
entries, construction timestamp. -/
def scheduleToJson (s : SubstitutionSchedule) : Json :=
  Json.obj [("pdf_issue_date".data, Json.num s.pdf_issue_date),
    ("entries".data, Json.obj (s.entries.map (fun p => (p.1, columnToJson p.2)))),
    ("struct_time".data, Json.num s.struct_time)]

/-- serde deserialization of one optional string field: an absent field or
an explicit `null` is `None`, a string is `Some`, anything else is a
deserialization error. -/
def getOptStrField (fs : List (Str × Json)) (key : Str) : Option (Option Str) :=
  match lookupAL fs key with
  | none => some none
  | some (Json.str s) => some (some s)
  | some Json.null => some none
  | some _ => none

/-- serde deserialization of `SubstitutionColumn`. -/
def columnFromJson (j : Json) : Option SubstitutionColumn :=
  match j with
  | Json.obj fs =>
    (getOptStrField fs "0".data).bind fun b0 =>
    (getOptStrField fs "1".data).bind fun b1 =>
    (getOptStrField fs "2".data).bind fun b2 =>
    (getOptStrField fs "3".data).bind fun b3 =>
    (getOptStrField fs "4".data).bind fun b4 =>
    (getOptStrField fs "5".data).map fun b5 =>
      ⟨b0, b1, b2, b3, b4, b5⟩
  | _ => none

/-- serde deserialization of the per-class entry map. -/
def entriesFromJson : List (Str × Json) → Option EntriesAL
  | [] => some []
  | (k, v) :: rest =>
    match columnFromJson v, entriesFromJson rest with
    | some c, some es => some ((k, c) :: es)
    | _, _ => none

/-- serde deserialization of `SubstitutionSchedule`. -/
def scheduleFromJson (j : Json) : Option SubstitutionSchedule :=
  match j with
  | Json.obj fs =>
    match lookupAL fs "pdf_issue_date".data, lookupAL fs "entries".data,
        lookupAL fs "struct_time".data with
    | some (Json.num d), some (Json.obj es), some (Json.num t) =>
      (entriesFromJson es).map fun entries => ⟨d, entries, t⟩
    | _, _, _ => none
  | _ => none

/-- Hexadecimal digit (lowercase), for control-character escapes. -/
def hexDigitChar (n : Nat) : Char :=
  if n < 10 then Char.ofNat (48 + n) else Char.ofNat (87 + n)

/-- serde_json string escaping for one character. -/
def escapeChar (c : Char) : Str :=
  if c = '\"' then ['\\', '\"']
  else if c = '\\' then ['\\', '\\']
  else if c = '\n' then ['\\', 'n']
  else if c = '\r' then ['\\', 'r']
  else if c = '\t' then ['\\', 't']
  else if c.toNat = 8 then ['\\', 'b']
  else if c.toNat = 12 then ['\\', 'f']
  else if c.toNat < 32 then
    ['\\', 'u', '0', '0', hexDigitChar (c.toNat / 16), hexDigitChar (c.toNat % 16)]
  else [c]

/-- serde_json string literal rendering. -/
def renderStrLit (s : Str) : Str :=
  '\"' :: s.foldr (fun c acc => escapeChar c ++ acc) ['\"']

/-- Decimal digits of a natural number, most significant first (fuel-bounded
worker). -/
def natDigitsGo : Nat → Nat → Str
  | 0, _ => []
  | _, 0 => []
  | fuel + 1, n => natDigitsGo fuel (n / 10) ++ [Char.ofNat (48 + n % 10)]

/-- Decimal rendering of a natural number. -/
def renderNat (n : Nat) : Str :=
  if n = 0 then ['0'] else natDigitsGo (n + 1) n

/-- Decimal rendering of an integer. -/
def renderInt (i : Int) : Str :=
  if i < 0 then '-' :: renderNat i.natAbs else renderNat i.natAbs

mutual

/-- Compact serde_json rendering of a JSON value. -/
def renderJson : Json → Str
  | Json.null => "null".data
  | Json.str s => renderStrLit s
  | Json.num n => renderInt n
  | Json.obj fs => Char.ofNat 123 :: renderFields fs ++ [Char.ofNat 125]

/-- Compact serde_json rendering of an object's field list. -/
def renderFields : List (Str × Json) → Str
  | [] => []
  | [(k, v)] => renderStrLit k ++ ':' :: renderJson v
  | (k, v) :: rest => renderStrLit k ++ ':' :: renderJson v ++ ',' :: renderFields rest

end

/-- `serde_json::to_string(&schedule)`: the serialized cache payload. -/
def serialize (s : SubstitutionSchedule) : Str :=
  renderJson (scheduleToJson s)

/-! ## The change-detecting cache (`JsonHandler` in `src/json_handler.rs`) -/

/-- Weekday slots, from the `Schoolday` enum in `src/main.rs`. -/
inductive Schoolday
  | Monday
  | Tuesday
  | Wednesday
  | Thursday
  | Friday
deriving DecidableEq, Repr

/-- `Schoolday::next_day`: successor with Friday wrapping to Monday. -/
def Schoolday.next_day : Schoolday → Schoolday
  | Schoolday.Monday => Schoolday.Tuesday
  | Schoolday.Tuesday => Schoolday.Wednesday
  | Schoolday.Wednesday => Schoolday.Thursday
  | Schoolday.Thursday => Schoolday.Friday
  | Schoolday.Friday => Schoolday.Monday

/-- The cache state of `JsonHandler`: the serialized-schedule store and the
content-hash store, both keyed by weekday. -/
structure JsonHandler where
  jsons : List (Schoolday × Str)
  hashes : List (Schoolday × Str)
deriving DecidableEq, Repr

/-- The three exits of `JsonHandler::update`, named as in the spec's
`UpdateOutcome`: `Unchanged` is the hash-match early `return Ok(())`,
`Replaced` the successful full path's `Ok(())`, `Failed` an `Err` return. -/
inductive UpdateOutcome
  | Unchanged
  | Replaced
  | Failed (reason : Str)
deriving DecidableEq, Repr

/-- Result of one `JsonHandler::update` call: which control-flow path
returned (hash-match early return, full replacement, or error), the cache
state at return, and the temporary on-disk artifacts (temp dir and temp
PDF file paths) still existing at return. -/
structure UpdateResult where
  outcome : UpdateOutcome
  state : JsonHandler
  temps : List Str
deriving DecidableEq, Repr

/-- `JsonHandler::update`. External collaborators are parameters: `hashFn`
is SHA-512 + hex, `extract` is `SubstitutionSchedule::from_pdf` (lopdf +
tabula) on the bytes written to the temp file, `tempDirPath`/`tempFileName`
are the random names from `util`. Mirrors the source order: hash check,
then hash-store write, then temp-file creation, then extraction, then
serialization and json-store write, then temp cleanup (success path only);
the fire-and-forget database task does not touch the cache. -/
def JsonHandler.update (self : JsonHandler) (hashFn : List Nat → Str)
    (extract : List Nat → Except Str SubstitutionSchedule)
    (tempDirPath tempFileName : Str)
    (day : Schoolday) (pdf : List Nat) : UpdateResult :=
  let hash := hashFn pdf
  if lookupAL self.hashes day = some hash then
    ⟨UpdateOutcome.Unchanged, self, []⟩
  else
    let st1 : JsonHandler := ⟨self.jsons, updateAL self.hashes day hash⟩
    let tempFilePath := tempDirPath ++ '/' :: tempFileName
    match extract pdf with
    | Except.error e => ⟨UpdateOutcome.Failed e, st1, [tempDirPath, tempFilePath]⟩
    | Except.ok sched =>
      let json := serialize sched
      let st2 : JsonHandler := ⟨updateAL st1.jsons day json, st1.hashes⟩
      ⟨UpdateOutcome.Replaced, st2, []⟩

/-- `JsonHandler::get_json`: read the serialized schedule for a slot. -/
def JsonHandler.get_json (self : JsonHandler) (day : Schoolday) : Option Str :=
  lookupAL self.jsons day

/-- A separator row: nonempty and its first cell starts with `'-'` (the
group-terminating condition `table[row][0].starts_with('-')`). -/
def isSepRow : List Str → Bool
  | [] => false
  | c0 :: _ => startsWithDash c0

/-! ## Concrete fixtures used by the example theorems, witnesses and
counterexamples below -/

/-- The spec's table-reconstruction example: header `["", "7a", "7b"]`,
block-0 rows `["1", "Math cancelled", ""]` and `["-", "", ""]`, followed by
the separator rows terminating block groups 1-4. -/
def exampleTable : List (List Str) :=
  [["".data, "7a".data, "7b".data],
   ["1".data, "Math cancelled".data, "".data],
   ["-".data, "".data, "".data],
   ["-".data, "".data, "".data],
   ["-".data, "".data, "".data],
   ["-".data, "".data, "".data],
   ["-".data, "".data, "".data]]

/-- A table whose single block-0 row is itself the separator row and
carries content, so the terminating row's cells must be processed. -/
def sepContentTable : List (List Str) :=
  [["".data, "7a".data, "7b".data],
   ["-".data, "X".data, "".data],
   ["-".data, "".data, "".data],
   ["-".data, "".data, "".data],
   ["-".data, "".data, "".data],
   ["-".data, "".data, "".data]]

/-- A table with junk rows after the 5th separator, including an empty row
that would panic if it were ever read: exactly five groups are consumed. -/
def trailingJunkTable : List (List Str) :=
  [["".data, "7a".data, "7b".data],
   ["-".data, "".data, "".data],
   ["-".data, "".data, "".data],
   ["-".data, "".data, "".data],
   ["-".data, "".data, "".data],
   ["-".data, "".data, "".data],
   []]

/-- The spec's multi-row merge example: two contributing rows for block 0
of the class at column 0. -/
def mergeTable : List (List Str) :=
  [["".data, "7a".data, "7b".data],
   ["1".data, "A".data, "".data],
   ["1cont".data, "B".data, "".data],
   ["-".data, "".data, "".data],
   ["-".data, "".data, "".data],
   ["-".data, "".data, "".data],
   ["-".data, "".data, "".data],
   ["-".data, "".data, "".data]]

/-- A table whose header declares two classes but whose first content row
has only one cell (fewer cells than declared classes). -/
def shortRowTable : List (List Str) :=
  [["".data, "A".data, "B".data],
   ["1".data],
   ["-".data, "".data, "".data],
   ["-".data, "".data, "".data],
   ["-".data, "".data, "".data],
   ["-".data, "".data, "".data],
   ["-".data, "".data, "".data]]

/-- A table satisfying claim C10's literal precondition (every row has at
least as many cells as the header) whose second row is nevertheless longer
than the header, which makes `classes[i]` go out of bounds. -/
def longRowTable : List (List Str) :=
  [["".data, "A".data],
   ["-".data, "y".data, "z".data],
   ["-".data, "".data],
   ["-".data, "".data],
   ["-".data, "".data],
   ["-".data, "".data]]

/-- A well-formed table: every row exactly as wide as the header, five
separator rows. -/
def wfTable : List (List Str) :=
  [["".data, "A".data],
   ["-".data, "".data],
   ["-".data, "".data],
   ["-".data, "".data],
   ["-".data, "".data],
   ["-".data, "".data]]

/-- A fixed schedule value used as a successful extraction result. -/
def sched0 : SubstitutionSchedule :=
  ⟨1738540800000, [("7a".data, ⟨some "A\nB".data, none, none, none, none, none⟩)], 42⟩

/-- A stand-in content-hash function returning a fixed digest. -/
def hashFn0 : List Nat → Str := fun _ => "h1".data

/-- An extraction boundary that always fails. -/
def extractFail : List Nat → Except Str SubstitutionSchedule :=
  fun _ => Except.error "boom".data

/-- An extraction boundary that always succeeds with `sched0`. -/
def extractOk : List Nat → Except Str SubstitutionSchedule :=
  fun _ => Except.ok sched0

/-- An extraction boundary driven by the short-row table: it succeeds with
whatever `from_table` produces for it. -/
def extractShortRow : List Nat → Except Str SubstitutionSchedule :=
  fun _ =>
    match SubstitutionSchedule.from_table [shortRowTable] 0 0 with
    | some s => Except.ok s
    | none => Except.error "tabula".data

/-- An empty cache state. -/
def emptyHandler : JsonHandler := ⟨[], []⟩

/-- A cache state that already holds a good entry and hash for Monday. -/
def mondayHandler : JsonHandler :=
  ⟨[(Schoolday.Monday, "J0".data)], [(Schoolday.Monday, "h0".data)]⟩

/-! ## Helper lemmas about the association-list operations -/

theorem lookupAL_updateAL {κ α : Type} [DecidableEq κ] (e : List (κ × α)) (key : κ) (v : α)
    (q : κ) :
    lookupAL (updateAL e key v) q = if key = q then some v else lookupAL e q := by
  induction e with
  | nil =>
    by_cases h : key = q <;> simp [updateAL, lookupAL, h]
  | cons p rest ih =>
    obtain ⟨k0, w⟩ := p
    by_cases h0 : k0 = key
    · subst h0
      by_cases h1 : k0 = q <;> simp [updateAL, lookupAL, h1]
    · by_cases h1 : k0 = q
      · subst h1
        have hkq : ¬ key = k0 := fun h => h0 h.symm
        simp [updateAL, lookupAL, h0, hkq]
      · simp [updateAL, lookupAL, h0, h1, ih]

theorem lookupAL_updateAL_self {κ α : Type} [DecidableEq κ] (e : List (κ × α)) (key : κ)
    (v : α) : lookupAL (updateAL e key v) key = some v := by
  simp [lookupAL_updateAL]

theorem nth?_lt {α : Type} : ∀ (l : List α) (i : Nat), i < l.length →
    ∃ a, nth? l i = some a ∧ a ∈ l := by
  intro l
  induction l with
  | nil => intro i h; simp at h
  | cons a rest ih =>
    intro i h
    cases i with
    | zero => exact ⟨a, rfl, List.mem_cons_self a rest⟩
    | succ n =>
      obtain ⟨b, hb, hm⟩ := ih n (by simpa using h)
      exact ⟨b, hb, List.mem_cons_of_mem a hm⟩

theorem getBlock_isSome (c : SubstitutionColumn) (idx : Nat) (h : idx < 6) :
    (getBlock c idx).isSome := by
  interval_cases idx <;> rfl

theorem applyCell_isSome (li : Nat) (part : Str) (col : SubstitutionColumn) (h : li < 6) :
    (applyCell li part col).isSome := by
  have hg := getBlock_isSome col li h
  unfold applyCell
  cases hb : getBlock col li with
  | none => rw [hb] at hg; simp at hg
  | some bo => cases bo <;> by_cases hp : part.isEmpty <;> simp [hp]

/-- Processing one row's cells never changes which class names have an
entry in the map. -/
theorem processCells_lookup_isSome (classes : List Str) (li : Nat) :
    ∀ (cells : List Str) (i : Nat) (e e2 : EntriesAL),
    processCells classes li i cells e = some e2 →
    ∀ c, (lookupAL e2 c).isSome = (lookupAL e c).isSome := by
  intro cells
  induction cells with
  | nil =>
    intro i e e2 h c
    simp only [processCells] at h
    cases h
    rfl
  | cons part rest ih =>
    intro i e e2 h c
    cases hn : nth? classes i with
    | none => simp [processCells, hn] at h
    | some cls =>
      cases hl : lookupAL e cls with
      | none => simp [processCells, hn, hl] at h
      | some col =>
        cases ha : applyCell li part col with
        | none => simp [processCells, hn, hl, ha] at h
        | some col2 =>
          simp only [processCells, hn, hl, ha] at h
          have step := ih (i + 1) (updateAL e cls col2) e2 h c
          rw [step, lookupAL_updateAL]
          by_cases hc : cls = c
          · subst hc
            simp [hl]
          · simp [hc]

/-- Processing one row's cells succeeds whenever the row has no more
content cells than there are classes and every class has an entry. -/
theorem processCells_isSome (classes : List Str) (li : Nat) (hli : li < 6) :
    ∀ (cells : List Str) (i : Nat) (e : EntriesAL),
    i + cells.length ≤ classes.length →
    (∀ c ∈ classes, (lookupAL e c).isSome) →
    (processCells classes li i cells e).isSome := by
  intro cells
  induction cells with
  | nil =>
    intro i e _ _
    simp [processCells]
  | cons part rest ih =>
    intro i e hlen hmem
    have hi : i < classes.length := by
      simp only [List.length_cons] at hlen
      omega
    obtain ⟨cls, hn, hcls⟩ := nth?_lt classes i hi
    have hlk := hmem cls hcls
    cases hl : lookupAL e cls with
    | none => rw [hl] at hlk; simp at hlk
    | some col =>
      have hap := applyCell_isSome li part col hli
      cases ha : applyCell li part col with
      | none => rw [ha] at hap; simp at hap
      | some col2 =>
        simp only [processCells, hn, hl, ha]
        apply ih (i + 1) (updateAL e cls col2)
        · simp only [List.length_cons] at hlen
          omega
        · intro c hc
          rw [lookupAL_updateAL]
          by_cases hceq : cls = c
          · simp [hceq]
          · simp [hceq]
            exact hmem c hc

/-- One block group succeeds when all rows are nonempty and no wider than
the header and a separator row is still ahead; the group consumes rows up
to and including the first separator row (exactly one separator). -/
theorem processGroup_spec (classes : List Str) (li : Nat) (hli : li < 6) :
    ∀ (rows : List (List Str)) (e : EntriesAL),
    (∀ r ∈ rows, r ≠ [] ∧ r.length ≤ classes.length + 1) →
    (∀ c ∈ classes, (lookupAL e c).isSome) →
    1 ≤ rows.countP isSepRow →
    ∃ rest e2, processGroup classes li rows e = some (rest, e2) ∧
      (∀ r ∈ rest, r ≠ [] ∧ r.length ≤ classes.length + 1) ∧
      (∀ c ∈ classes, (lookupAL e2 c).isSome) ∧
      rest.countP isSepRow + 1 = rows.countP isSepRow := by
  intro rows
  induction rows with
  | nil => intro e _ _ hcount; simp at hcount
  | cons r rest ih =>
    intro e hrows hmem hcount
    obtain ⟨hne, hlen⟩ := hrows r (List.mem_cons_self r rest)
    cases r with
    | nil => exact absurd rfl hne
    | cons c0 cs =>
      have hcs : 0 + cs.length ≤ classes.length := by
        simp only [List.length_cons] at hlen
        omega
      have hpc := processCells_isSome classes li hli cs 0 e hcs hmem
      cases hpce : processCells classes li 0 cs e with
      | none => rw [hpce] at hpc; simp at hpc
      | some e2 =>
        have hpres := processCells_lookup_isSome classes li cs 0 e e2 hpce
        have hmem2 : ∀ c ∈ classes, (lookupAL e2 c).isSome := by
          intro c hc
          rw [hpres c]
          exact hmem c hc
        by_cases hsep : startsWithDash c0 = true
        · refine ⟨rest, e2, ?_, ?_, hmem2, ?_⟩
          · simp [processGroup, hpce, hsep]
          · intro r hr
            exact hrows r (List.mem_cons_of_mem _ hr)
          · simp [List.countP_cons, isSepRow, hsep]
        · have hsepf : isSepRow (c0 :: cs) = false := by
            simp [isSepRow]
            exact Bool.not_eq_true _ ▸ eq_false_of_ne_true hsep
          have hcount2 : 1 ≤ rest.countP isSepRow := by
            rw [List.countP_cons, hsepf] at hcount
            simpa using hcount
          obtain ⟨rest2, e3, hpg, hrest2, hmem3, hcnt⟩ := ih e2
            (fun r hr => hrows r (List.mem_cons_of_mem _ hr)) hmem2 hcount2
          refine ⟨rest2, e3, ?_, hrest2, hmem3, ?_⟩
          · simp [processGroup, hpce, hsep, hpg]
          · rw [List.countP_cons, hsepf]
            simpa using hcnt

/-- The outer loop succeeds when there are at least as many separator rows
ahead as lesson indices left. -/
theorem processGroupsList_isSome (classes : List Str) :
    ∀ (idxs : List Nat) (rows : List (List Str)) (e : EntriesAL),
    (∀ i ∈ idxs, i < 6) →
    (∀ r ∈ rows, r ≠ [] ∧ r.length ≤ classes.length + 1) →
    (∀ c ∈ classes, (lookupAL e c).isSome) →
    idxs.length ≤ rows.countP isSepRow →
    (processGroupsList classes idxs rows e).isSome := by
  intro idxs
  induction idxs with
  | nil => intro rows e _ _ _ _; simp [processGroupsList]
  | cons idx idxs ih =>
    intro rows e hidx hrows hmem hlen
    have h1 : 1 ≤ rows.countP isSepRow := by
      simp only [List.length_cons] at hlen
      omega
    obtain ⟨rest, e2, hpg, hrest, hmem2, hcnt⟩ :=
      processGroup_spec classes idx (hidx idx (List.mem_cons_self idx idxs)) rows e hrows hmem h1
    simp only [processGroupsList, hpg]
    apply ih rest e2 (fun i hi => hidx i (List.mem_cons_of_mem _ hi)) hrest hmem2
    simp only [List.length_cons] at hlen
    omega

theorem foldl_init_isSome : ∀ (cs : List Str) (acc : EntriesAL) (c : Str),
    c ∈ cs ∨ (lookupAL acc c).isSome →
    (lookupAL (cs.foldl (fun e cl => updateAL e cl SubstitutionColumn.new) acc) c).isSome := by
  intro cs
  induction cs with
  | nil =>
    intro acc c h
    rcases h with h | h
    · simp at h
    · simpa using h
  | cons a cs ih =>
    intro acc c h
    simp only [List.foldl_cons]
    apply ih
    by_cases hac : a = c
    · right
      subst hac
      rw [lookupAL_updateAL_self]
      rfl
    · rcases h with h | h
      · rcases List.mem_cons.mp h with h2 | h2
        · exact absurd h2.symm hac
        · left; exact h2
      · right
        rw [lookupAL_updateAL]
        simpa [hac] using h

/-- Every header class name has an entry after initialisation. -/
theorem initEntries_isSome (classes : List Str) (c : Str) (hc : c ∈ classes) :
    (lookupAL (initEntries classes) c).isSome :=
  foldl_init_isSome classes [] c (Or.inl hc)

/-! ## Claim theorems -/

/-- Claim C1, counterexample: with a previously accepted entry and hash for
Monday, an update whose extraction fails returns a failure but does NOT
leave the slot's cache entry exactly as before the call: the stored
content hash has been replaced. This refutes the claim that both the
serialized Schedule and the stored content hash are left untouched. -/
theorem c1_counterexample :
    (mondayHandler.update hashFn0 extractFail "td".data "tf".data Schoolday.Monday
        [0]).outcome = UpdateOutcome.Failed "boom".data ∧
    lookupAL (mondayHandler.update hashFn0 extractFail "td".data "tf".data Schoolday.Monday
        [0]).state.hashes Schoolday.Monday ≠
      lookupAL mondayHandler.hashes Schoolday.Monday := by
  decide

/-- Claim C1, amended: when extraction fails (and the new hash differs from
the stored one, so extraction actually runs), `update` returns a failure
and leaves the slot's serialized Schedule untouched, but the stored
content hash has already been replaced by the new source bytes' hash
before extraction ran. -/
theorem c1_amended_thm (hashFn : List Nat → Str)
    (extract : List Nat → Except Str SubstitutionSchedule)
    (td tf : Str) (day : Schoolday) (pdf : List Nat) (st : JsonHandler) (e : Str)
    (hex : extract pdf = Except.error e)
    (hne : lookupAL st.hashes day ≠ some (hashFn pdf)) :
    (st.update hashFn extract td tf day pdf).outcome = UpdateOutcome.Failed e ∧
    (st.update hashFn extract td tf day pdf).state.jsons = st.jsons ∧
    lookupAL (st.update hashFn extract td tf day pdf).state.hashes day
      = some (hashFn pdf) := by
  have hupd : st.update hashFn extract td tf day pdf =
      ⟨UpdateOutcome.Failed e, ⟨st.jsons, updateAL st.hashes day (hashFn pdf)⟩,
        [td, td ++ '/' :: tf]⟩ := by
    simp only [JsonHandler.update, hex, if_neg hne]
  rw [hupd]
  exact ⟨rfl, rfl, lookupAL_updateAL_self _ _ _⟩

/-- Claim C1, witness for the amended theorem at a concrete input. -/
theorem c1_amended_witness :
    (mondayHandler.update hashFn0 extractFail "td".data "tf".data Schoolday.Monday
        [0]).outcome = UpdateOutcome.Failed "boom".data ∧
    (mondayHandler.update hashFn0 extractFail "td".data "tf".data Schoolday.Monday
        [0]).state.jsons = mondayHandler.jsons ∧
    lookupAL (mondayHandler.update hashFn0 extractFail "td".data "tf".data Schoolday.Monday
        [0]).state.hashes Schoolday.Monday = some (hashFn0 [0]) :=
  c1_amended_thm hashFn0 extractFail "td".data "tf".data Schoolday.Monday [0]
    mondayHandler "boom".data rfl (by decide)

/-- Claim C2, counterexample: a table whose header declares two classes and
whose first content row has one cell is reconstructed successfully (no
`MalformedTable` error exists in the code), and a cache update driven by
that table returns a replacement and mutates the slot's entry. -/
theorem c2_counterexample :
    (SubstitutionSchedule.table_to_substitutions shortRowTable).isSome = true ∧
    (emptyHandler.update hashFn0 extractShortRow "td".data "tf".data Schoolday.Monday
        [0]).outcome = UpdateOutcome.Replaced ∧
    (lookupAL (emptyHandler.update hashFn0 extractShortRow "td".data "tf".data
        Schoolday.Monday [0]).state.jsons Schoolday.Monday).isSome = true := by
  refine ⟨by decide, by decide, by decide⟩

/-- Claim C2, amended: a content row with fewer cells than the
header-declared classes is not an error condition: row processing succeeds
whenever the row has no more content cells than classes (missing trailing
cells simply contribute nothing), concretely the short-row table
reconstructs successfully, and a cache update driven by it replaces the
entry instead of leaving the cache unmutated. -/
theorem c2_amended_thm :
    (∀ (classes : List Str) (li : Nat) (cells : List Str) (e : EntriesAL),
      cells.length ≤ classes.length →
      (∀ c ∈ classes, (lookupAL e c).isSome) →
      li < 6 →
      (processCells classes li 0 cells e).isSome) ∧
    (SubstitutionSchedule.table_to_substitutions shortRowTable).isSome = true ∧
    (emptyHandler.update hashFn0 extractShortRow "td".data "tf".data Schoolday.Monday
        [0]).outcome = UpdateOutcome.Replaced := by
  refine ⟨?_, by decide, by decide⟩
  intro classes li cells e hlen hmem hli
  exact processCells_isSome classes li hli cells 0 e (by omega) hmem

/-- Claim C2, witness for the amended theorem: a one-cell row against two
declared classes is processed successfully. -/
theorem c2_amended_witness :
    (processCells ["A".data, "B".data] 0 0 ["x".data]
      [("A".data, SubstitutionColumn.new), ("B".data, SubstitutionColumn.new)]).isSome
      = true := by
  have h := c2_amended_thm.1 ["A".data, "B".data] 0 ["x".data]
    [("A".data, SubstitutionColumn.new), ("B".data, SubstitutionColumn.new)]
    (by decide) (by decide) (by decide)
  simpa using h

/-- Claim C8, counterexample: on an update whose extraction fails, the
function returns with the temp directory and temp PDF file still present
(cleanup only happens on the success path), refuting removal on every exit
path. -/
theorem c8_counterexample :
    (mondayHandler.update hashFn0 extractFail "td".data "tf".data Schoolday.Monday
        [1]).outcome = UpdateOutcome.Failed "boom".data ∧
    (mondayHandler.update hashFn0 extractFail "td".data "tf".data Schoolday.Monday
        [1]).temps ≠ [] := by
  decide

/-- Claim C8, amended: temporary artifacts are removed before return on the
success path, and none are created on the hash-match path; but on an
extraction failure the early error return leaks both the temp directory
and the temp PDF file. -/
theorem c8_amended_thm (hashFn : List Nat → Str)
    (extract : List Nat → Except Str SubstitutionSchedule)
    (td tf : Str) (day : Schoolday) (pdf : List Nat) (st : JsonHandler) :
    (lookupAL st.hashes day = some (hashFn pdf) →
      (st.update hashFn extract td tf day pdf).temps = []) ∧
    (∀ s, extract pdf = Except.ok s →
      (st.update hashFn extract td tf day pdf).temps = []) ∧
    (∀ e, extract pdf = Except.error e →
      lookupAL st.hashes day ≠ some (hashFn pdf) →
      (st.update hashFn extract td tf day pdf).temps = [td, td ++ '/' :: tf]) := by
  refine ⟨?_, ?_, ?_⟩
  · intro hmatch
    simp [JsonHandler.update, hmatch]
  · intro s hex
    by_cases hmatch : lookupAL st.hashes day = some (hashFn pdf)
    · simp [JsonHandler.update, hmatch]
    · simp [JsonHandler.update, hex, if_neg hmatch]
  · intro e hex hne
    simp [JsonHandler.update, hex, if_neg hne]

/-- Claim C8, witness for the amended theorem: a successful update leaves
no temporary artifacts behind. -/
theorem c8_amended_witness :
    (emptyHandler.update hashFn0 extractOk "td".data "tf".data Schoolday.Monday
        [0]).temps = [] :=
  (c8_amended_thm hashFn0 extractOk "td".data "tf".data Schoolday.Monday [0]
    emptyHandler).2.1 sched0 rfl

/-- Claim C3: reconstruction follows the specified algorithm. On the spec's
example table, class "7a" gets block 0 = "Math cancelled" and class "7b"'s
block 0 stays absent (class names in header order); a group-terminating
separator row's own content cells are still processed before termination;
and exactly five block groups are consumed — rows after the fifth
separator (even a row that would panic if read) are ignored. -/
theorem c3_reconstruction_thm :
    SubstitutionSchedule.table_to_substitutions exampleTable =
      some [("7a".data, ⟨some "Math cancelled".data, none, none, none, none, none⟩),
            ("7b".data, SubstitutionColumn.new)] ∧
    SubstitutionSchedule.table_to_substitutions sepContentTable =
      some [("7a".data, ⟨some "X".data, none, none, none, none, none⟩),
            ("7b".data, SubstitutionColumn.new)] ∧
    (SubstitutionSchedule.table_to_substitutions trailingJunkTable).isSome = true := by
  refine ⟨by decide, by decide, by decide⟩

/-- Claim C4: multiple physical rows contributing to the same class within
one block group merge newline-joined, in row order, with no newline before
the first contribution: the spec's example yields block value "A\nB". -/
theorem c4_merge_thm :
    SubstitutionSchedule.table_to_substitutions mergeTable =
      some [("7a".data, ⟨some "A\nB".data, none, none, none, none, none⟩),
            ("7b".data, SubstitutionColumn.new)] := by
  decide

/-- Claim C5: updating twice with identical bytes yields Replaced then
Unchanged. The first call (extraction succeeding, hash differing from any
stored one) returns `Replaced` and stores the serialized schedule; the
second call returns `Unchanged` with the state unchanged and no temps, and
does so for ANY extraction function, i.e. without re-running extraction. -/
theorem c5_idempotence_thm (hashFn : List Nat → Str)
    (extract : List Nat → Except Str SubstitutionSchedule)
    (td tf : Str) (day : Schoolday) (pdf : List Nat) (st : JsonHandler)
    (s : SubstitutionSchedule)
    (hex : extract pdf = Except.ok s)
    (hne : lookupAL st.hashes day ≠ some (hashFn pdf)) :
    (st.update hashFn extract td tf day pdf).outcome = UpdateOutcome.Replaced ∧
    lookupAL (st.update hashFn extract td tf day pdf).state.jsons day
      = some (serialize s) ∧
    ∀ (extract2 : List Nat → Except Str SubstitutionSchedule) (td2 tf2 : Str),
      (st.update hashFn extract td tf day pdf).state.update hashFn extract2 td2 tf2 day pdf
        = ⟨UpdateOutcome.Unchanged, (st.update hashFn extract td tf day pdf).state, []⟩ := by
  have hupd : st.update hashFn extract td tf day pdf =
      ⟨UpdateOutcome.Replaced,
        ⟨updateAL st.jsons day (serialize s), updateAL st.hashes day (hashFn pdf)⟩, []⟩ := by
    simp only [JsonHandler.update, hex, if_neg hne]
  rw [hupd]
  refine ⟨rfl, lookupAL_updateAL_self _ _ _, ?_⟩
  intro extract2 td2 tf2
  have hmatch : lookupAL (updateAL st.hashes day (hashFn pdf)) day = some (hashFn pdf) :=
    lookupAL_updateAL_self _ _ _
  simp [JsonHandler.update, hmatch]

/-- Claim C5, witness for the idempotence theorem at a concrete input. -/
theorem c5_idempotence_witness :
    (emptyHandler.update hashFn0 extractOk "td".data "tf".data Schoolday.Monday
        [0]).outcome = UpdateOutcome.Replaced ∧
    lookupAL (emptyHandler.update hashFn0 extractOk "td".data "tf".data Schoolday.Monday
        [0]).state.jsons Schoolday.Monday = some (serialize sched0) :=
  ⟨(c5_idempotence_thm hashFn0 extractOk "td".data "tf".data Schoolday.Monday [0]
      emptyHandler sched0 rfl (by decide)).1,
   (c5_idempotence_thm hashFn0 extractOk "td".data "tf".data Schoolday.Monday [0]
      emptyHandler sched0 rfl (by decide)).2.1⟩

/-- Claim C6: for any local UTC offset, issue-date parsing of a text
containing "Datum: Montag, 03.02.2025" followed by a line break yields the
epoch milliseconds of 2025-02-03 at local midnight
(1738540800000 - offset); text after the line break is ignored. -/
theorem c6_date_thm (off : Int) :
    parse_issue_date off
        ("Vertretungsplan blah Datum: Montag, 03.02.2025\nmore text".data)
      = DateResult.ok (1738540800000 - off) ∧
    parse_issue_date off ("Datum: Montag, 03.02.2025\n".data)
      = DateResult.ok (1738540800000 - off) :=
  ⟨rfl, rfl⟩

/-- Claim C7, counterexample: the date segment "1.2.3.4" cannot be split
into exactly three numeric components, yet parsing does not fail — it
succeeds, reading day 1, month 2, year 3. This refutes "fails ... for
every input whose date segment cannot be split into exactly three numeric
components". -/
theorem c7_counterexample :
    (splitOnL ".".data "1.2.3.4".data).length ≠ 3 ∧
    parse_issue_date 0 ("Datum: Montag, 1.2.3.4\n".data)
      = DateResult.ok (-62069846400000) := by
  decide

/-- Claim C7, amended: when the label "Datum: " is absent, parsing fails
with the error "date not found". But a segment whose components are not
all numeric, or which has fewer than three components, makes the code
panic (an `unwrap`/index panic, not an error return); and a segment with
more than three numeric components succeeds, using the first three as
day, month, year. -/
theorem c7_amended_thm :
    (∀ (off : Int) (text : Str), (splitOnL datumLabel text).length = 1 →
      parse_issue_date off text = DateResult.err "date not found".data) ∧
    parse_issue_date 0 ("Datum: x, a.b.c\n".data) = DateResult.panic ∧
    parse_issue_date 0 ("Datum: x, 1.2\n".data) = DateResult.panic ∧
    (∀ off : Int, parse_issue_date off ("Datum: Montag, 1.2.3.4\n".data)
      = DateResult.ok (daysFromCivil 3 2 1 * 86400000 - off)) := by
  refine ⟨?_, by decide, by decide, fun off => rfl⟩
  intro off text h
  cases hs : splitOnL datumLabel text with
  | nil => rw [hs] at h; simp at h
  | cons a rest =>
    cases rest with
    | nil => simp [parse_issue_date, hs]
    | cons b more => rw [hs] at h; simp at h

/-- Claim C7, witness: parsing a text without the label fails with the
"date not found" error. -/
theorem c7_amended_witness :
    parse_issue_date 0 ("kein Label hier".data) = DateResult.err "date not found".data :=
  c7_amended_thm.1 0 ("kein Label hier".data) (by decide)

theorem columnFromJson_columnToJson (c : SubstitutionColumn) :
    columnFromJson (columnToJson c) = some c := by
  obtain ⟨b0, b1, b2, b3, b4, b5⟩ := c
  cases b0 <;> cases b1 <;> cases b2 <;> cases b3 <;> cases b4 <;> cases b5 <;> rfl

theorem entriesFromJson_toJson : ∀ es : EntriesAL,
    entriesFromJson (es.map (fun p => (p.1, columnToJson p.2))) = some es := by
  intro es
  induction es with
  | nil => rfl
  | cons p rest ih =>
    obtain ⟨k, c⟩ := p
    simp only [List.map_cons, entriesFromJson, columnFromJson_columnToJson, ih]

/-- Claim C9: the serialized encoding of a Schedule is an object carrying
the issue-date field and the construction-timestamp field; each class's
object maps exactly the present lesson-block indices (as string keys) to
their text, absent blocks being omitted entirely (lookup yields nothing,
in particular never `null`); and deserializing the serialization restores
the schedule exactly — same class names, same per-block text, absent
blocks still absent. -/
theorem c9_roundtrip_thm :
    (∀ s : SubstitutionSchedule, scheduleFromJson (scheduleToJson s) = some s) ∧
    (∀ c : SubstitutionColumn, ∃ fs, columnToJson c = Json.obj fs ∧
      lookupAL fs "0".data = Option.map Json.str c.block_0 ∧
      lookupAL fs "1".data = Option.map Json.str c.block_1 ∧
      lookupAL fs "2".data = Option.map Json.str c.block_2 ∧
      lookupAL fs "3".data = Option.map Json.str c.block_3 ∧
      lookupAL fs "4".data = Option.map Json.str c.block_4 ∧
      lookupAL fs "5".data = Option.map Json.str c.block_5) ∧
    (∀ s : SubstitutionSchedule, ∃ fs, scheduleToJson s = Json.obj fs ∧
      lookupAL fs "pdf_issue_date".data = some (Json.num s.pdf_issue_date) ∧
      lookupAL fs "struct_time".data = some (Json.num s.struct_time)) := by
  refine ⟨?_, ?_, ?_⟩
  · intro s
    obtain ⟨d, es, t⟩ := s
    have hstep : scheduleFromJson (scheduleToJson ⟨d, es, t⟩) =
        (entriesFromJson (es.map (fun p => (p.1, columnToJson p.2)))).map
          (fun entries => ⟨d, entries, t⟩) := rfl
    rw [hstep, entriesFromJson_toJson]
    rfl
  · intro c
    obtain ⟨b0, b1, b2, b3, b4, b5⟩ := c
    cases b0 <;> cases b1 <;> cases b2 <;> cases b3 <;> cases b4 <;> cases b5 <;>
      exact ⟨_, rfl, rfl, rfl, rfl, rfl, rfl, rfl⟩
  · intro s
    exact ⟨_, rfl, rfl, rfl⟩

/-- Claim C10, counterexample: a table satisfying the claim's precondition
verbatim — the header row exists, every row has at least one cell and at
least as many cells as the header row (2), and five separator rows are
present — on which reconstruction nevertheless hits an out-of-bounds
class lookup (`classes[i]`, embedded as `none`), because one row is LONGER
than the header. -/
theorem c10_counterexample :
    (longRowTable.all fun r => !r.isEmpty && decide (2 ≤ r.length)) = true ∧
    5 ≤ (longRowTable.drop 1).countP isSepRow ∧
    SubstitutionSchedule.table_to_substitutions longRowTable = none := by
  refine ⟨by decide, by decide, by decide⟩

/-- Claim C10, amended: reconstruction is panic-free for every table whose
header row exists and is nonempty, whose every row is nonempty and has at
most as many cells as the header row, and whose content rows contain at
least five separator rows: `table_to_substitutions` then returns a
mapping (no out-of-bounds indexing or failed lookup). -/
theorem c10_amended_thm (label : Str) (classes : List Str) (rows : List (List Str))
    (hrows : ∀ r ∈ rows, r ≠ [] ∧ r.length ≤ classes.length + 1)
    (hsep : 5 ≤ rows.countP isSepRow) :
    (SubstitutionSchedule.table_to_substitutions ((label :: classes) :: rows)).isSome := by
  simp only [SubstitutionSchedule.table_to_substitutions]
  apply processGroupsList_isSome
  · intro i hi
    have := List.mem_range.mp hi
    omega
  · exact hrows
  · intro c hc
    exact initEntries_isSome classes c hc
  · simpa using hsep

/-- Claim C10, witness: the amended panic-freeness theorem applied to a
concrete well-formed table. -/
theorem c10_amended_witness :
    (SubstitutionSchedule.table_to_substitutions wfTable).isSome := by
  have h := c10_amended_thm "".data ["A".data]
    [["-".data, "".data], ["-".data, "".data], ["-".data, "".data],
     ["-".data, "".data], ["-".data, "".data]] (by decide) (by decide)
  exact h

/-- Claim C6, witness: the date theorem instantiated at offset 0 (UTC
environment). -/
theorem c6_date_witness :
    parse_issue_date 0 ("Datum: Montag, 03.02.2025\n".data)
      = DateResult.ok 1738540800000 := by
  have h := (c6_date_thm 0).2
  simpa using h

/-- Claim C9, witness: the round-trip instantiated at a concrete
schedule. -/
theorem c9_roundtrip_witness :
    scheduleFromJson (scheduleToJson sched0) = some sched0 :=
  c9_roundtrip_thm.1 sched0
